/-
  Verification of the acquisition / trigger / buffer-ring core of the
  batgizmo logger firmware.

  Shallow embedding conventions:
  * C machine integers are modelled as `Int` / `Nat`; where the C code
    truncates to a 16-bit signed store, the wrap is made explicit
    (`toInt16`).
  * Arithmetic right shift of a (two's complement) int32 is floor
    division by a power of two (`sar`).
  * The settings fields `pretrigger_time_s` / `min_sampling_time_s` enter
    the buffer sequencer only through the products
    `s_buffers_per_second * pretrigger_time_s` and
    `s_buffers_per_second * min_sampling_time_s`; these realized buffer
    counts are carried as `Nat` parameters of the settings snapshot.
  * The buffer FIFO (single producer / single consumer ring with an
    atomic occupancy counter) is modelled as a list whose head is the
    next element to read; `s_buffer_fifo_count` corresponds to the list
    length.
-/
import Mathlib

set_option linter.unusedVariables false

/-! ### Gain controller (gain.c) -/

def GAIN_MAX_RANGE_INDEX : Nat := 4

/-- `s_gain_shifts` from gain.c: bit shifts equivalent to the gain values. -/
def s_gain_shifts : List Nat := [0, 1, 2, 3, 4]

/-- `gain_shift_for_range` from gain.c. -/
def gain_shift_for_range (range : Nat) : Nat := s_gain_shifts.getD range 0

/-! ### Spectral trigger detector (trigger.c) -/

def MAX_TRIGGER_MATCH_CLAUSES : Nat := 16

def SETTINGS_IGNORE_TRIGGER_VALUE : Int := -1

/-- Arithmetic shift right of a two's-complement integer: floor division
by `2 ^ n`. -/
def sar (x : Int) (n : Nat) : Int := Int.fdiv x (2 ^ n)

/-- The slice of the settings snapshot consumed by `check_for_trigger`. -/
structure TriggerSettings where
  trigger_thresholds : List Int
  trigger_flags : List Bool
  trigger_max_count : Int
deriving DecidableEq

/-- The loop body of `check_for_trigger` (trigger.c lines 174-190):
iterates over bucket indices, accumulating `match_count`.  A bucket is
skipped when its flag is clear or its threshold is the ignore value;
otherwise the configured threshold is shifted right twice by
`shift_for_gain` and compared against the bucket power. -/
def trigger_count_loop (freq_buckets : List Int) (ps : TriggerSettings)
    (shift_for_gain : Nat) : List Nat → Nat → Nat
  | [], match_count => match_count
  | i :: rest, match_count =>
    if ps.trigger_flags.getD i false = false ∨
        ps.trigger_thresholds.getD i 0 = SETTINGS_IGNORE_TRIGGER_VALUE then
      trigger_count_loop freq_buckets ps shift_for_gain rest match_count
    else
      let threshold := sar (sar (ps.trigger_thresholds.getD i 0) shift_for_gain) shift_for_gain
      let matched := threshold ≤ freq_buckets.getD i 0
      trigger_count_loop freq_buckets ps shift_for_gain rest
        (if matched then match_count + 1 else match_count)

/-- `check_for_trigger` from trigger.c (lines 158-195).  `gain_range` is
the active logical gain range (`s_logical_index` in gain.c), so
`gain_get_shift()` is `gain_shift_for_range gain_range`. -/
def check_for_trigger (freq_buckets : List Int) (ps : TriggerSettings)
    (gain_range : Nat) : Bool :=
  let shift := gain_shift_for_range gain_range
  let shift_for_gain := gain_shift_for_range GAIN_MAX_RANGE_INDEX - shift
  let match_count :=
    trigger_count_loop freq_buckets ps shift_for_gain
      (List.range MAX_TRIGGER_MATCH_CLAUSES) 0
  decide (0 < match_count ∧ (match_count : Int) ≤ ps.trigger_max_count)

/-- A matching bucket as the spec phrases it: enable flag set, threshold
not the ignore value, and power at least the gain-adjusted threshold. -/
def bucket_matches (freq_buckets : List Int) (ps : TriggerSettings)
    (shift_for_gain : Nat) (i : Nat) : Bool :=
  ps.trigger_flags.getD i false
  && !(ps.trigger_thresholds.getD i 0 == SETTINGS_IGNORE_TRIGGER_VALUE)
  && decide (sar (sar (ps.trigger_thresholds.getD i 0) shift_for_gain) shift_for_gain
      ≤ freq_buckets.getD i 0)

/-- The number of matching buckets as the spec phrases it. -/
def matching_bucket_count (freq_buckets : List Int) (ps : TriggerSettings)
    (shift_for_gain : Nat) : Nat :=
  (List.range MAX_TRIGGER_MATCH_CLAUSES).countP (bucket_matches freq_buckets ps shift_for_gain)

/-! ### Race guard of the trigger main-loop path (trigger.c lines 93-110) -/

/-- The globals touched by `trigger_main_fast_processing`. -/
structure TriggerMainState where
  raw_half_frame_ready : Bool
  trigger_triggered : Bool
deriving DecidableEq

/-- `trigger_main_fast_processing` from trigger.c.  The FFT evaluation of
`check_each_window` (CMSIS DSP) is abstracted as its boolean outcome
`eval_result`; `countBefore` is the generation counter read before the
evaluation and `countAfter` the value it holds when re-read afterwards
(the acquirer may have bumped it concurrently). -/
def trigger_main_fast_processing (countBefore : Int) (eval_result : Bool)
    (countAfter : Int) (s : TriggerMainState) : TriggerMainState :=
  if s.raw_half_frame_ready then
    if eval_result then
      if countAfter = countBefore then
        { raw_half_frame_ready := false, trigger_triggered := true }
      else
        { s with raw_half_frame_ready := false }
    else
      { s with raw_half_frame_ready := false }
  else s

/-! ### Sample acquisition (data_acquisition.c) -/

def SCALE_DOWN_DELTA : Int := 0x6000

/-- Truncation of an integer to a signed 16-bit value (the store into
`sample_type_t`). -/
def toInt16 (x : Int) : Int := (x + 32768) % 65536 - 32768

/-- One iteration of the scaling loop of `process_half_frame`
(data_acquisition.c lines 241-252): the expression
`((value - offset) << leftshift) - correction` is computed in `int` and
truncated on the store into `sample_type_t`. -/
def process_sample (offset : Int) (leftshift : Nat) (correction : Int)
    (raw : Int) : Int :=
  toInt16 ((raw - offset) * 2 ^ leftshift - correction)

/-- The scaling / overload-detection part of `process_half_frame`
(data_acquisition.c lines 238-258), fold over the raw half-frame in
source order: returns the published samples and the overload flag. -/
def process_half_frame (offset : Int) (leftshift : Nat) (correction : Int) :
    List Int → List Int × Bool
  | [] => ([], false)
  | raw :: rest =>
    let scaled := process_sample offset leftshift correction raw
    let r := process_half_frame offset leftshift correction rest
    (scaled :: r.1,
      (decide (SCALE_DOWN_DELTA < scaled) || decide (scaled < -SCALE_DOWN_DELTA)) || r.2)

/-- The per-sample formula as the spec phrases it: every operation
carried out in 16-bit signed arithmetic. -/
def spec_scaled_sample (offset : Int) (leftshift : Nat) (correction : Int)
    (raw : Int) : Int :=
  toInt16 (toInt16 (toInt16 (raw - offset) * 2 ^ leftshift) - correction)

/-! ### Buffer ring & sequencer (data_processor_buffers.c, newer variant
with gated recording and variable sampling rate) -/

def NUM_BUFFERS : Nat := 37

def BUFFER_DELTA : Nat := 2

def BUFFER_FIFO_LENGTH : Nat := NUM_BUFFERS * 5

def DATA_BUFFER_ENTRIES : Nat := (32768 * 2) / 2

def MAXIMUM_READ_LEAD : Int := 12

/-- `BUFFERFIFO_END_SEQUENCE = (uint32_t) -1` stored in an `int32_t` FIFO. -/
def BUFFERFIFO_END_SEQUENCE : Int := -1

/-- `BUFFERFIFO_START_SEQUENCE = (uint32_t) -2` stored in an `int32_t` FIFO. -/
def BUFFERFIFO_START_SEQUENCE : Int := -2

inductive data_processor_mode_t
  | triggered
  | continuous
deriving DecidableEq

/-- The settings fields consumed by the buffer sequencer.  The C code
uses `s_buffers_per_second * pretrigger_time_s` and
`s_buffers_per_second * min_sampling_time_s`; those realized buffer
counts are carried here directly. -/
structure BufferSettings where
  gated_recording : Bool
  pretrigger_buffers : Nat
  min_sampling_buffers : Nat
deriving DecidableEq

/-- The module-level state of data_processor_buffers.c.  The FIFO ring
array with its read/write cursors and atomic occupancy count is modelled
as a list whose head is the next element to read; `is_new_sequence` is
the static local of `dataprocessor_buffers_get_next`. -/
structure BufferState where
  mode : data_processor_mode_t
  active_buffer_index : Nat
  active_buffer_entry_count : Nat
  is_gated : Bool
  gate_released_ticks : Int
  unwrapped_filled_buffer_counter : Int
  buffer_fifo : List Int
  is_triggered : Bool
  trigger_unwrapped_buffer_count : Int
  final_unwrapped_buffer_for_trigger : Int
  is_new_sequence : Bool
deriving DecidableEq

/-- `data_processor_buffers_reset` (the `s_buffers_per_second` assignment
is absorbed into `BufferSettings`). -/
def data_processor_buffers_reset (mode : data_processor_mode_t) : BufferState :=
  { mode := mode
    active_buffer_index := 0
    active_buffer_entry_count := 0
    is_gated := false
    gate_released_ticks := 0
    unwrapped_filled_buffer_counter := 0
    buffer_fifo := []
    is_triggered := false
    trigger_unwrapped_buffer_count := 0
    final_unwrapped_buffer_for_trigger := 0
    is_new_sequence := false }

/-- Rotation of `s_active_buffer_index` modulo `NUM_BUFFERS`. -/
def next_active_buffer_index (i : Nat) : Nat :=
  if NUM_BUFFERS ≤ i + 1 then 0 else i + 1

/-- The FIFO-population decisions taken when the active buffer fills
(`data_processor_buffers`, the body of the
`entry_count >= DATA_BUFFER_ENTRIES` branch after the index rotation and
before the fill-counter increment). -/
def rotate_decide_fifo (st : BufferSettings) (s : BufferState) : BufferState :=
  match s.mode with
  | .triggered =>
    if s.is_triggered then
      if st.gated_recording then
        if s.final_unwrapped_buffer_for_trigger < s.unwrapped_filled_buffer_counter then
          { s with is_triggered := false,
                   buffer_fifo := s.buffer_fifo ++ [BUFFERFIFO_END_SEQUENCE],
                   is_gated := true }
        else if NUM_BUFFERS + 1 ≤ s.buffer_fifo.length then
          { s with buffer_fifo := s.buffer_fifo ++ [BUFFERFIFO_END_SEQUENCE],
                   is_gated := true }
        else
          { s with buffer_fifo := s.buffer_fifo ++ [s.unwrapped_filled_buffer_counter] }
      else
        if s.final_unwrapped_buffer_for_trigger < s.unwrapped_filled_buffer_counter then
          { s with is_triggered := false,
                   buffer_fifo := s.buffer_fifo ++ [BUFFERFIFO_END_SEQUENCE] }
        else
          { s with buffer_fifo := s.buffer_fifo ++ [s.unwrapped_filled_buffer_counter] }
    else s
  | .continuous =>
    let s1 := { s with buffer_fifo := s.buffer_fifo ++ [s.unwrapped_filled_buffer_counter] }
    if st.gated_recording then
      if NUM_BUFFERS + 1 ≤ s1.buffer_fifo.length then
        { s1 with buffer_fifo := s1.buffer_fifo ++ [BUFFERFIFO_END_SEQUENCE],
                  is_gated := true }
      else s1
    else s1

/-- `data_processor_buffers` (the interrupt-context sample-append entry
point), state effect.  `count` is the number of arriving samples; the
sample values themselves do not influence the control state, so the
copies are tracked as entry-count bookkeeping (the write addresses are
modelled separately by `data_processor_buffers_write_chunks`). -/
def data_processor_buffers (st : BufferSettings) (count : Nat) (s : BufferState) :
    BufferState :=
  if st.gated_recording && s.is_gated then s
  else
    let free_entries := DATA_BUFFER_ENTRIES - s.active_buffer_entry_count
    let samples_to_copy := min free_entries count
    let samples_remaining := count - samples_to_copy
    let s1 := { s with
      active_buffer_entry_count := s.active_buffer_entry_count + samples_to_copy }
    let s2 :=
      if DATA_BUFFER_ENTRIES ≤ s1.active_buffer_entry_count then
        let s' := rotate_decide_fifo st
          { s1 with
            active_buffer_index := next_active_buffer_index s1.active_buffer_index,
            active_buffer_entry_count := 0 }
        { s' with unwrapped_filled_buffer_counter :=
            s'.unwrapped_filled_buffer_counter + 1 }
      else s1
    if 0 < samples_remaining then
      { s2 with active_buffer_entry_count :=
          s2.active_buffer_entry_count + samples_remaining }
    else s2

/-- The slot-relative write chunks `(offset, length)` performed by the
two copy loops of `data_processor_buffers`, and the number of slot
rotations.  After a rotation the second chunk starts at the reset entry
count 0 with no further fill check. -/
def data_processor_buffers_write_chunks (entry_count count : Nat) :
    List (Nat × Nat) × Nat :=
  let free_entries := DATA_BUFFER_ENTRIES - entry_count
  let samples_to_copy := min free_entries count
  let samples_remaining := count - samples_to_copy
  let after_first := entry_count + samples_to_copy
  let rotations := if DATA_BUFFER_ENTRIES ≤ after_first then 1 else 0
  let second_start := if DATA_BUFFER_ENTRIES ≤ after_first then 0 else after_first
  ((entry_count, samples_to_copy) ::
    (if 0 < samples_remaining then [(second_start, samples_remaining)] else []),
    rotations)

/-- `data_processor_buffers_on_trigger` (main context; `tick_delta = 10`).
The LED blink and the debug trigger counter are external side effects. -/
def data_processor_buffers_on_trigger (st : BufferSettings) (main_tick_count : Int)
    (s : BufferState) : BufferState :=
  if s.is_gated || main_tick_count < s.gate_released_ticks + 10 then s
  else if s.is_triggered then
    { s with final_unwrapped_buffer_for_trigger :=
        s.unwrapped_filled_buffer_counter + (st.min_sampling_buffers : Int) }
  else
    let unexpired_buffers_available : Int :=
      min ((NUM_BUFFERS : Int) - (BUFFER_DELTA : Int)) s.unwrapped_filled_buffer_counter
    let pretrigger_buffer_count : Int :=
      min (st.pretrigger_buffers : Int) unexpired_buffers_available
    let initial_buffer_count : Int :=
      s.unwrapped_filled_buffer_counter - pretrigger_buffer_count
    let final_buffer_count : Int :=
      s.unwrapped_filled_buffer_counter + (st.min_sampling_buffers : Int)
    { s with
      trigger_unwrapped_buffer_count := s.unwrapped_filled_buffer_counter,
      buffer_fifo := s.buffer_fifo ++ [BUFFERFIFO_START_SEQUENCE]
        ++ (List.range pretrigger_buffer_count.toNat).map
            (fun i : Nat => initial_buffer_count + (i : Int)),
      final_unwrapped_buffer_for_trigger := final_buffer_count,
      is_triggered := true }

/-- `data_processor_buffers_on_recording_complete`. -/
def data_processor_buffers_on_recording_complete (st : BufferSettings)
    (main_tick_count : Int) (s : BufferState) : BufferState :=
  let s0 := { s with is_gated := false, gate_released_ticks := main_tick_count }
  match s0.mode with
  | .continuous =>
    { s0 with buffer_fifo := s0.buffer_fifo ++ [BUFFERFIFO_START_SEQUENCE] }
  | .triggered =>
    let minimum := s0.unwrapped_filled_buffer_counter + (st.min_sampling_buffers : Int)
    let s1 :=
      if s0.final_unwrapped_buffer_for_trigger < minimum then
        { s0 with final_unwrapped_buffer_for_trigger := minimum }
      else s0
    { s1 with buffer_fifo := s1.buffer_fifo ++ [BUFFERFIFO_START_SEQUENCE] }

/-- Result of `dataprocessor_buffers_get_next`: nothing ready, an END
sentinel (close the current file), or a yielded slot (the consumed
unwrapped index and the physical slot index of the returned buffer). -/
inductive GetNextResult
  | nothingReady
  | closeFile
  | yieldSlot (unwrapped : Int) (slot : Int)
deriving DecidableEq

/-- The wrapped physical slot index computed by
`dataprocessor_buffers_get_next` for an unwrapped index `v`:
`(v - fill) + (abi - 1)`, brought into `[0, NUM_BUFFERS)` by one
conditional add and one conditional subtract. -/
def get_next_read_buffer_index (fill abi v : Int) : Int :=
  let rbi0 := (v - fill) + (abi - 1)
  let rbi1 := if rbi0 < 0 then rbi0 + (NUM_BUFFERS : Int) else rbi0
  if (NUM_BUFFERS : Int) ≤ rbi1 then rbi1 - NUM_BUFFERS else rbi1

/-- The distance by which reading leads writing, as computed by
`dataprocessor_buffers_get_next`. -/
def get_next_lead (fill abi v : Int) : Int :=
  if abi < get_next_read_buffer_index fill abi v then
    get_next_read_buffer_index fill abi v - abi
  else get_next_read_buffer_index fill abi v + (NUM_BUFFERS : Int) - abi

/-- The `while (buffer_fifo_sniff(...))` loop of
`dataprocessor_buffers_get_next`, structurally recursive on the FIFO
contents (every `continue` iteration consumes the head).  Arguments
`fill` and `abi` are `s_unwrapped_filled_buffer_counter` and
`s_active_buffer_index`; the boolean threaded through is the static
`s_is_new_sequence`.  Returns the remaining FIFO, the new
`s_is_new_sequence`, and the result. -/
def get_next_loop (st : BufferSettings) (fill : Int) (abi : Int) :
    List Int → Bool → List Int × Bool × GetNextResult
  | [], is_new_sequence => ([], is_new_sequence, .nothingReady)
  | v :: rest, is_new_sequence =>
    if v = BUFFERFIFO_END_SEQUENCE then
      (rest, false, .closeFile)
    else if v = BUFFERFIFO_START_SEQUENCE then
      get_next_loop st fill abi rest true
    else if v < fill - (NUM_BUFFERS : Int) + 1 then
      get_next_loop st fill abi rest is_new_sequence
    else if fill ≤ v then
      get_next_loop st fill abi rest is_new_sequence
    else if st.gated_recording then
      (rest, false, .yieldSlot v (get_next_read_buffer_index fill abi v))
    else if is_new_sequence = false ∨ get_next_lead fill abi v < MAXIMUM_READ_LEAD then
      (rest, false, .yieldSlot v (get_next_read_buffer_index fill abi v))
    else
      (v :: rest, is_new_sequence, .nothingReady)

/-- `dataprocessor_buffers_get_next` (main context pull interface). -/
def dataprocessor_buffers_get_next (st : BufferSettings) (s : BufferState) :
    BufferState × GetNextResult :=
  if st.gated_recording && !s.is_gated then (s, .nothingReady)
  else
    let r := get_next_loop st s.unwrapped_filled_buffer_counter
      (s.active_buffer_index : Int) s.buffer_fifo s.is_new_sequence
    ({ s with buffer_fifo := r.1, is_new_sequence := r.2.1 }, r.2.2)

/-- One interaction step with the buffer sequencer in a gated recording
session: an interrupt-context sample append, a consumed trigger event, a
consumer pull, or the recording layer's completion signal.  The storage
layer calls `on_recording_complete` only after draining the gated batch,
so that step carries the drained-FIFO premise. -/
inductive SequencerStep (st : BufferSettings) : BufferState → BufferState → Prop
  | append (count : Nat) (s : BufferState) :
      SequencerStep st s (data_processor_buffers st count s)
  | trigger (tick : Int) (s : BufferState) :
      SequencerStep st s (data_processor_buffers_on_trigger st tick s)
  | pull (s : BufferState) :
      SequencerStep st s (dataprocessor_buffers_get_next st s).1
  | recordingComplete (tick : Int) (s : BufferState)
      (drained : s.buffer_fifo = []) :
      SequencerStep st s (data_processor_buffers_on_recording_complete st tick s)

/-- States reachable from reset in a gated triggered recording session. -/
def SequencerReachable (st : BufferSettings) (s : BufferState) : Prop :=
  Relation.ReflTransGen (SequencerStep st) (data_processor_buffers_reset .triggered) s

/-! ### Helper lemmas for the trigger and acquisition claims -/

theorem trigger_count_loop_cons (freq_buckets : List Int) (ps : TriggerSettings)
    (sfg : Nat) (i : Nat) (rest : List Nat) (acc : Nat) :
    trigger_count_loop freq_buckets ps sfg (i :: rest) acc =
      trigger_count_loop freq_buckets ps sfg rest
        (if bucket_matches freq_buckets ps sfg i then acc + 1 else acc) := by
  by_cases hflag : ps.trigger_flags.getD i false = false
  · rw [trigger_count_loop, if_pos (Or.inl hflag)]
    simp_all [bucket_matches]
  · have hflag' : ps.trigger_flags.getD i false = true := by
      revert hflag; cases ps.trigger_flags.getD i false <;> simp
    by_cases hval : ps.trigger_thresholds.getD i 0 = SETTINGS_IGNORE_TRIGGER_VALUE
    · rw [trigger_count_loop, if_pos (Or.inr hval)]
      simp_all [bucket_matches]
    · rw [trigger_count_loop, if_neg (not_or.mpr ⟨hflag, hval⟩)]
      show trigger_count_loop freq_buckets ps sfg rest
          (if sar (sar (ps.trigger_thresholds.getD i 0) sfg) sfg
              ≤ freq_buckets.getD i 0 then acc + 1 else acc) = _
      congr 1
      by_cases hm : sar (sar (ps.trigger_thresholds.getD i 0) sfg) sfg
          ≤ freq_buckets.getD i 0 <;>
        simp_all [bucket_matches]

theorem trigger_count_loop_eq_countP (freq_buckets : List Int)
    (ps : TriggerSettings) (sfg : Nat) (l : List Nat) (acc : Nat) :
    trigger_count_loop freq_buckets ps sfg l acc =
      acc + l.countP (bucket_matches freq_buckets ps sfg) := by
  induction l generalizing acc with
  | nil => simp [trigger_count_loop]
  | cons i rest ih =>
    rw [trigger_count_loop_cons, ih, List.countP_cons]
    by_cases h : bucket_matches freq_buckets ps sfg i
    · simp [h]
      omega
    · simp [h]

theorem check_for_trigger_iff (freq_buckets : List Int) (ps : TriggerSettings)
    (gain_range : Nat) :
    check_for_trigger freq_buckets ps gain_range = true ↔
      (0 < matching_bucket_count freq_buckets ps
          (gain_shift_for_range GAIN_MAX_RANGE_INDEX - gain_shift_for_range gain_range) ∧
        (matching_bucket_count freq_buckets ps
          (gain_shift_for_range GAIN_MAX_RANGE_INDEX - gain_shift_for_range gain_range) : Int)
          ≤ ps.trigger_max_count) := by
  simp only [check_for_trigger, trigger_count_loop_eq_countP, matching_bucket_count,
    Nat.zero_add, decide_eq_true_eq]

theorem toInt16_eq_of_modeq {x y : Int} (h : x ≡ y [ZMOD 65536]) :
    toInt16 x = toInt16 y := by
  have h' : x % 65536 = y % 65536 := h
  unfold toInt16
  omega

theorem toInt16_modeq (x : Int) : toInt16 x ≡ x [ZMOD 65536] := by
  show toInt16 x % 65536 = x % 65536
  unfold toInt16
  omega

theorem process_sample_eq_spec (offset : Int) (leftshift : Nat) (correction : Int)
    (raw : Int) :
    process_sample offset leftshift correction raw =
      spec_scaled_sample offset leftshift correction raw := by
  unfold process_sample spec_scaled_sample
  refine (toInt16_eq_of_modeq ?_).symm
  exact ((toInt16_modeq (toInt16 (raw - offset) * 2 ^ leftshift)).trans
    ((toInt16_modeq (raw - offset)).mul_right (2 ^ leftshift))).sub_right correction

theorem process_half_frame_fst (offset : Int) (leftshift : Nat) (correction : Int)
    (raws : List Int) :
    (process_half_frame offset leftshift correction raws).1 =
      raws.map (process_sample offset leftshift correction) := by
  induction raws with
  | nil => rfl
  | cons raw rest ih => simp [process_half_frame, ih]

theorem process_half_frame_snd (offset : Int) (leftshift : Nat) (correction : Int)
    (raws : List Int) :
    ((process_half_frame offset leftshift correction raws).2 = true ↔
      ∃ v ∈ (process_half_frame offset leftshift correction raws).1,
        SCALE_DOWN_DELTA < v ∨ v < -SCALE_DOWN_DELTA) := by
  induction raws with
  | nil => simp [process_half_frame]
  | cons raw rest ih =>
    simp only [process_half_frame, Bool.or_eq_true, decide_eq_true_eq, List.mem_cons]
    constructor
    · rintro ((h | h) | h)
      · exact ⟨_, Or.inl rfl, Or.inl h⟩
      · exact ⟨_, Or.inl rfl, Or.inr h⟩
      · obtain ⟨v, hv, hout⟩ := ih.mp h
        exact ⟨v, Or.inr hv, hout⟩
    · rintro ⟨v, hv | hv, hout⟩
      · subst hv
        rcases hout with h | h
        · exact Or.inl (Or.inl h)
        · exact Or.inl (Or.inr h)
      · exact Or.inr (ih.mpr ⟨v, hv, hout⟩)

theorem getD_map_four (l : List Int) (i : Nat) :
    (l.map (fun b => 4 * b)).getD i 0 = 4 * l.getD i 0 := by
  simp only [List.getD_eq_getElem?_getD, List.getElem?_map]
  cases l[i]? <;> simp

/-! ### Claim theorems: trigger detector and acquisition -/

/-- C1: for every bucket-power vector and settings snapshot, the
per-sub-window decision of `check_for_trigger` is true iff the number of
matching buckets (flag set, threshold not the ignore value, power at
least the gain-adjusted threshold) is strictly positive and at most
`trigger_max_count`; in particular a match count of 0 or of
`trigger_max_count + 1` yields no trigger. -/
theorem c1_trigger_fires_iff_match_count_in_bounds (freq_buckets : List Int)
    (ps : TriggerSettings) (gain_range : Nat) :
    (check_for_trigger freq_buckets ps gain_range = true ↔
      (0 < matching_bucket_count freq_buckets ps
          (gain_shift_for_range GAIN_MAX_RANGE_INDEX - gain_shift_for_range gain_range) ∧
        (matching_bucket_count freq_buckets ps
          (gain_shift_for_range GAIN_MAX_RANGE_INDEX - gain_shift_for_range gain_range) : Int)
          ≤ ps.trigger_max_count))
    ∧ (matching_bucket_count freq_buckets ps
        (gain_shift_for_range GAIN_MAX_RANGE_INDEX - gain_shift_for_range gain_range) = 0 →
        check_for_trigger freq_buckets ps gain_range = false)
    ∧ ((matching_bucket_count freq_buckets ps
        (gain_shift_for_range GAIN_MAX_RANGE_INDEX - gain_shift_for_range gain_range) : Int)
          = ps.trigger_max_count + 1 →
        check_for_trigger freq_buckets ps gain_range = false) := by
  refine ⟨check_for_trigger_iff freq_buckets ps gain_range, ?_, ?_⟩
  · intro h
    rw [← Bool.not_eq_true, check_for_trigger_iff]
    omega
  · intro h
    rw [← Bool.not_eq_true, check_for_trigger_iff]
    omega

theorem c1_witness :
    check_for_trigger (List.replicate 16 100)
      ⟨0 :: List.replicate 15 (-1), List.replicate 16 true, 1⟩ 3 = true :=
  (c1_trigger_fires_iff_match_count_in_bounds (List.replicate 16 100)
    ⟨0 :: List.replicate 15 (-1), List.replicate 16 true, 1⟩ 3).1.mpr (by decide)

/-- C6: the trigger flag is published only when the half-frame evaluation
triggered and the generation counter re-read after the evaluation equals
the one read before it; if the evaluation triggered but the counter
changed, the flag is left unchanged. -/
theorem c6_generation_race_guard (countBefore : Int) (eval_result : Bool)
    (countAfter : Int) (s : TriggerMainState) :
    (eval_result = true → countAfter ≠ countBefore →
      (trigger_main_fast_processing countBefore eval_result countAfter s).trigger_triggered
        = s.trigger_triggered)
    ∧ ((trigger_main_fast_processing countBefore eval_result countAfter s).trigger_triggered
          = true →
        s.trigger_triggered = false →
        (s.raw_half_frame_ready = true ∧ eval_result = true ∧ countAfter = countBefore)) := by
  unfold trigger_main_fast_processing
  constructor
  · intro h1 h2
    split_ifs <;> simp_all
  · intro h1 h2
    split_ifs at h1 <;> simp_all

theorem c6_witness :
    (trigger_main_fast_processing 5 true 6 ⟨true, false⟩).trigger_triggered = false :=
  ((c6_generation_race_guard 5 true 6 ⟨true, false⟩).1 rfl (by decide)).trans rfl

/-- C8: each published sample equals
`((raw - offset_code) << left_shift) - signal_offset_correction` computed
in 16-bit signed arithmetic, and the half-frame overload flag is set iff
some published sample lies strictly outside
`[-SCALE_DOWN_DELTA, SCALE_DOWN_DELTA]`; the published samples are a pure
function of the inputs, so flagging overload does not alter them. -/
theorem c8_sample_scaling_and_overload (raws : List Int) (offset : Int)
    (leftshift : Nat) (correction : Int) :
    (process_half_frame offset leftshift correction raws).1
        = raws.map (spec_scaled_sample offset leftshift correction)
    ∧ ((process_half_frame offset leftshift correction raws).2 = true ↔
        ∃ v ∈ (process_half_frame offset leftshift correction raws).1,
          SCALE_DOWN_DELTA < v ∨ v < -SCALE_DOWN_DELTA) := by
  refine ⟨?_, process_half_frame_snd offset leftshift correction raws⟩
  rw [process_half_frame_fst]
  have h : process_sample offset leftshift correction
      = spec_scaled_sample offset leftshift correction :=
    funext (process_sample_eq_spec offset leftshift correction)
  rw [h]

theorem c8_witness :
    (process_half_frame 1 2 3 [40000, 7]).1
      = [40000, 7].map (spec_scaled_sample 1 2 3) :=
  (c8_sample_scaling_and_overload [40000, 7] 1 2 3).1

/-- Per-bucket agreement underlying the gain-compensation claim: with the
physical-signal-equivalent bucket power at the next gain range up
(power quadrupled) and the same raw threshold, the match decision agrees
with the original range one step below maximum, provided the threshold is
a multiple of 4 (the code shifts the threshold right twice per range
step). -/
theorem bucket_matches_gain_shift (freq_buckets : List Int) (ps : TriggerSettings)
    (i : Nat)
    (h : ps.trigger_flags.getD i false = true →
      ps.trigger_thresholds.getD i 0 ≠ SETTINGS_IGNORE_TRIGGER_VALUE →
      (4 : Int) ∣ ps.trigger_thresholds.getD i 0) :
    bucket_matches (freq_buckets.map (fun b => 4 * b)) ps 0 i
      = bucket_matches freq_buckets ps 1 i := by
  unfold bucket_matches
  cases hflag : ps.trigger_flags.getD i false
  · simp [hflag]
  · by_cases hval : ps.trigger_thresholds.getD i 0 = SETTINGS_IGNORE_TRIGGER_VALUE
    · rw [List.getD_eq_getElem?_getD] at hval
      simp [hval]
    · obtain ⟨u, hu⟩ := h hflag hval
      have h1 : sar (sar (ps.trigger_thresholds.getD i 0) 0) 0
          = ps.trigger_thresholds.getD i 0 := by
        simp [sar, Int.fdiv_one]
      have h2 : sar (sar (ps.trigger_thresholds.getD i 0) 1) 1 = u := by
        simp only [sar, pow_one, hu]
        rw [show (4 : Int) * u = 2 * (2 * u) by ring,
          Int.mul_fdiv_cancel_left _ (by norm_num),
          Int.mul_fdiv_cancel_left _ (by norm_num)]
      have h3 : (sar (sar (ps.trigger_thresholds.getD i 0) 0) 0
            ≤ (freq_buckets.map (fun b => 4 * b)).getD i 0)
          ↔ (sar (sar (ps.trigger_thresholds.getD i 0) 1) 1
            ≤ freq_buckets.getD i 0) := by
        rw [h1, h2, getD_map_four, hu]
        omega
      rw [decide_eq_decide.mpr h3]

/-- C9 counterexample: the claim as stated (raise the gain range one step,
quadruple the bucket powers to keep the physical signal fixed, and halve
the raw thresholds) changes the trigger decision.  With one enabled
bucket, threshold 64, bucket power 8 at range 3: the original evaluation
compares 8 against 64 >> 2 = 16 and does not trigger, while the raised
evaluation compares 32 against 32 and triggers. -/
theorem c9_counterexample :
    check_for_trigger
        ((8 :: List.replicate 15 0).map (fun b => 4 * b))
        ⟨(64 :: List.replicate 15 (-1)).map (fun t => sar t 1),
          List.replicate 16 true, 1⟩ GAIN_MAX_RANGE_INDEX
      ≠ check_for_trigger (8 :: List.replicate 15 0)
        ⟨64 :: List.replicate 15 (-1), List.replicate 16 true, 1⟩
        (GAIN_MAX_RANGE_INDEX - 1) := by decide

/-- C9 (amended): for the gain range one step below maximum sensitivity,
evaluating the trigger decision with the physical-signal-equivalent
bucket powers at the raised range (powers multiplied by 4) and the raw
thresholds unchanged yields the same trigger decision, provided every
active threshold is a multiple of 4; the code shifts each configured
threshold right by twice the difference between the maximum-sensitivity
shift and the active range's shift. -/
theorem c9_gain_compensation_amended (freq_buckets : List Int)
    (ps : TriggerSettings)
    (hdiv : ∀ i, i < MAX_TRIGGER_MATCH_CLAUSES →
      ps.trigger_flags.getD i false = true →
      ps.trigger_thresholds.getD i 0 ≠ SETTINGS_IGNORE_TRIGGER_VALUE →
      (4 : Int) ∣ ps.trigger_thresholds.getD i 0) :
    check_for_trigger (freq_buckets.map (fun b => 4 * b)) ps GAIN_MAX_RANGE_INDEX
      = check_for_trigger freq_buckets ps (GAIN_MAX_RANGE_INDEX - 1) := by
  have e1 : gain_shift_for_range GAIN_MAX_RANGE_INDEX
      - gain_shift_for_range GAIN_MAX_RANGE_INDEX = 0 := by decide
  have e2 : gain_shift_for_range GAIN_MAX_RANGE_INDEX
      - gain_shift_for_range (GAIN_MAX_RANGE_INDEX - 1) = 1 := by decide
  have hcount : (List.range MAX_TRIGGER_MATCH_CLAUSES).countP
        (bucket_matches (freq_buckets.map (fun b => 4 * b)) ps 0)
      = (List.range MAX_TRIGGER_MATCH_CLAUSES).countP
        (bucket_matches freq_buckets ps 1) := by
    apply List.countP_congr
    intro i hi
    rw [bucket_matches_gain_shift freq_buckets ps i
      (hdiv i (List.mem_range.mp hi))]
  simp only [check_for_trigger, trigger_count_loop_eq_countP, Nat.zero_add, e1, e2,
    hcount]

theorem c9_witness :
    check_for_trigger ((List.replicate 16 2).map (fun b => 4 * b))
        ⟨8 :: List.replicate 15 (-1), List.replicate 16 true, 1⟩ GAIN_MAX_RANGE_INDEX
      = check_for_trigger (List.replicate 16 2)
        ⟨8 :: List.replicate 15 (-1), List.replicate 16 true, 1⟩
        (GAIN_MAX_RANGE_INDEX - 1) :=
  c9_gain_compensation_amended (List.replicate 16 2)
    ⟨8 :: List.replicate 15 (-1), List.replicate 16 true, 1⟩ (by decide)

/-- C10: for a call of the sample-append operation with a well-formed
active entry count and at most `DATA_BUFFER_ENTRIES` samples, every copy
chunk lands within the slot bounds and at most one slot rotation occurs;
and there is a call with more than `DATA_BUFFER_ENTRIES` samples whose
second copy chunk runs past the end of the slot, since it is written
without a further fill check. -/
theorem c10_append_write_bounds (entry_count count : Nat)
    (hwf : entry_count < DATA_BUFFER_ENTRIES)
    (hcount : count ≤ DATA_BUFFER_ENTRIES) :
    (∀ chunk ∈ (data_processor_buffers_write_chunks entry_count count).1,
        chunk.1 + chunk.2 ≤ DATA_BUFFER_ENTRIES)
    ∧ (data_processor_buffers_write_chunks entry_count count).2 ≤ 1
    ∧ ∃ chunk ∈ (data_processor_buffers_write_chunks 0 (2 * DATA_BUFFER_ENTRIES + 1)).1,
        DATA_BUFFER_ENTRIES < chunk.1 + chunk.2 := by
  refine ⟨?_, ?_, ?_⟩
  · intro chunk hc
    simp only [data_processor_buffers_write_chunks] at hc
    by_cases hrot : DATA_BUFFER_ENTRIES
        ≤ entry_count + min (DATA_BUFFER_ENTRIES - entry_count) count
    · by_cases hrem : 0 < count - min (DATA_BUFFER_ENTRIES - entry_count) count
      · simp [hrot, hrem] at hc
        rcases hc with rfl | rfl
        · simp; omega
        · simp; omega
      · simp [hrot, hrem] at hc
        rcases hc with rfl
        simp; omega
    · by_cases hrem : 0 < count - min (DATA_BUFFER_ENTRIES - entry_count) count
      · simp [hrot, hrem] at hc
        rcases hc with rfl | rfl
        · simp; omega
        · simp; omega
      · simp [hrot, hrem] at hc
        rcases hc with rfl
        simp; omega
  · simp only [data_processor_buffers_write_chunks]
    split_ifs <;> omega
  · exact ⟨(0, DATA_BUFFER_ENTRIES + 1), by decide, by decide⟩

theorem c10_witness :
    (∀ chunk ∈ (data_processor_buffers_write_chunks 0 4).1,
        chunk.1 + chunk.2 ≤ DATA_BUFFER_ENTRIES)
    ∧ (data_processor_buffers_write_chunks 0 4).2 ≤ 1
    ∧ ∃ chunk ∈ (data_processor_buffers_write_chunks 0 (2 * DATA_BUFFER_ENTRIES + 1)).1,
        DATA_BUFFER_ENTRIES < chunk.1 + chunk.2 :=
  c10_append_write_bounds 0 4 (by decide) (by decide)

/-! ### Step lemmas for the triggered-mode sequencer -/

theorem append_full_triggered_push (st : BufferSettings) (s : BufferState)
    (hg : st.gated_recording = false) (hmode : s.mode = .triggered)
    (htrig : s.is_triggered = true) (hentry : s.active_buffer_entry_count = 0)
    (hle : s.unwrapped_filled_buffer_counter ≤ s.final_unwrapped_buffer_for_trigger) :
    (data_processor_buffers st DATA_BUFFER_ENTRIES s).buffer_fifo
        = s.buffer_fifo ++ [s.unwrapped_filled_buffer_counter]
    ∧ (data_processor_buffers st DATA_BUFFER_ENTRIES s).is_triggered = true
    ∧ (data_processor_buffers st DATA_BUFFER_ENTRIES s).unwrapped_filled_buffer_counter
        = s.unwrapped_filled_buffer_counter + 1
    ∧ (data_processor_buffers st DATA_BUFFER_ENTRIES s).active_buffer_entry_count = 0
    ∧ (data_processor_buffers st DATA_BUFFER_ENTRIES s).mode = .triggered
    ∧ (data_processor_buffers st DATA_BUFFER_ENTRIES s).final_unwrapped_buffer_for_trigger
        = s.final_unwrapped_buffer_for_trigger := by
  have hnotlt : ¬ s.final_unwrapped_buffer_for_trigger
      < s.unwrapped_filled_buffer_counter := not_lt.mpr hle
  simp [data_processor_buffers, rotate_decide_fifo, hg, hmode, htrig, hentry, hnotlt]

theorem append_full_triggered_end (st : BufferSettings) (s : BufferState)
    (hg : st.gated_recording = false) (hmode : s.mode = .triggered)
    (htrig : s.is_triggered = true) (hentry : s.active_buffer_entry_count = 0)
    (hlt : s.final_unwrapped_buffer_for_trigger < s.unwrapped_filled_buffer_counter) :
    (data_processor_buffers st DATA_BUFFER_ENTRIES s).buffer_fifo
        = s.buffer_fifo ++ [BUFFERFIFO_END_SEQUENCE]
    ∧ (data_processor_buffers st DATA_BUFFER_ENTRIES s).is_triggered = false := by
  simp [data_processor_buffers, rotate_decide_fifo, hg, hmode, htrig, hentry, hlt]

theorem range_map_shift (j : Int) (n : Nat) :
    (List.range (n + 1)).map (fun i : Nat => j + (i : Int))
      = j :: (List.range n).map (fun i : Nat => (j + 1) + (i : Int)) := by
  rw [List.range_succ_eq_map, List.map_cons, List.map_map]
  refine congrArg₂ _ (by simp) ?_
  apply List.map_congr_left
  intro i _
  simp [Function.comp]
  ring

/-- Running the triggered sequencer on consecutive full buffers: with
`final = j + n` and the fill counter at `j`, the next `n + 2` completed
slots append the live tokens `j, j+1, ..., j+n` followed by the END
sentinel, after which the trigger state is cleared. -/
theorem triggered_run (st : BufferSettings) (hg : st.gated_recording = false) :
    ∀ (n : Nat) (s : BufferState) (j : Int), s.mode = .triggered →
      s.is_triggered = true → s.active_buffer_entry_count = 0 →
      s.unwrapped_filled_buffer_counter = j →
      s.final_unwrapped_buffer_for_trigger = j + n →
      ((data_processor_buffers st DATA_BUFFER_ENTRIES)^[n + 2] s).buffer_fifo
        = s.buffer_fifo ++ (List.range (n + 1)).map (fun i : Nat => j + (i : Int))
          ++ [BUFFERFIFO_END_SEQUENCE]
      ∧ ((data_processor_buffers st DATA_BUFFER_ENTRIES)^[n + 2] s).is_triggered
          = false := by
  intro n
  induction n with
  | zero =>
    intro s j hmode htrig hentry hfill hfinal
    have hle : s.unwrapped_filled_buffer_counter
        ≤ s.final_unwrapped_buffer_for_trigger := by omega
    obtain ⟨p1, p2, p3, p4, p5, p6⟩ :=
      append_full_triggered_push st s hg hmode htrig hentry hle
    set s1 := data_processor_buffers st DATA_BUFFER_ENTRIES s with hs1
    have hlt : s1.final_unwrapped_buffer_for_trigger
        < s1.unwrapped_filled_buffer_counter := by omega
    obtain ⟨q1, q2⟩ := append_full_triggered_end st s1 hg p5 p2 p4 hlt
    have hiter : (data_processor_buffers st DATA_BUFFER_ENTRIES)^[0 + 2] s
        = data_processor_buffers st DATA_BUFFER_ENTRIES s1 := by
      rw [hs1]
      rfl
    refine ⟨?_, ?_⟩
    · rw [hiter, q1, p1, hfill]
      simp [show List.range 1 = [0] from rfl]
    · rw [hiter]
      exact q2
  | succ n ih =>
    intro s j hmode htrig hentry hfill hfinal
    have hle : s.unwrapped_filled_buffer_counter
        ≤ s.final_unwrapped_buffer_for_trigger := by
      rw [hfill, hfinal]
      omega
    obtain ⟨p1, p2, p3, p4, p5, p6⟩ :=
      append_full_triggered_push st s hg hmode htrig hentry hle
    set s1 := data_processor_buffers st DATA_BUFFER_ENTRIES s with hs1
    have hfill1 : s1.unwrapped_filled_buffer_counter = j + 1 := by omega
    have hfinal1 : s1.final_unwrapped_buffer_for_trigger = (j + 1) + n := by
      rw [p6, hfinal]
      push_cast
      ring
    obtain ⟨r1, r2⟩ := ih s1 (j + 1) p5 p2 p4 hfill1 hfinal1
    have hiter : (data_processor_buffers st DATA_BUFFER_ENTRIES)^[n + 1 + 2] s
        = (data_processor_buffers st DATA_BUFFER_ENTRIES)^[n + 2] s1 := by
      rw [hs1, ← Function.iterate_succ_apply]
    refine ⟨?_, ?_⟩
    · rw [hiter, r1, p1, hfill, range_map_shift j (n + 1)]
      simp
    · rw [hiter]
      exact r2

/-- The pretrigger backfill length as the spec phrases it: the configured
pretrigger duration in buffers, clamped to the retained unexpired history
`min (NUM_BUFFERS - BUFFER_DELTA) fill_counter`. -/
def pretrigger_backfill_count (st : BufferSettings) (k : Int) : Int :=
  min (st.pretrigger_buffers : Int) (min ((NUM_BUFFERS : Int) - (BUFFER_DELTA : Int)) k)

/-- C2: a trigger event while not triggered emits one START token, then
the backfill indices `k - p, ..., k - 1` in increasing order with
`p = min(pretrigger buffers, min(NUM_BUFFERS - BUFFER_DELTA, k))`, sets
`is_triggered` and the final index `k + m` (`m` the configured minimum
recording duration in buffers); the next `m + 2` completed slots then
append `k, k + 1, ..., k + m` followed by END, clearing `is_triggered`,
so the emitted sequence is `START, k-p, ..., k-1, k, ..., k+m, END`. -/
theorem c2_pretrigger_backfill_sequence (st : BufferSettings) (tick : Int)
    (s : BufferState) (k : Int)
    (hg : st.gated_recording = false) (hmode : s.mode = .triggered)
    (htrig : s.is_triggered = false) (hgate : s.is_gated = false)
    (htick : s.gate_released_ticks + 10 ≤ tick)
    (hfill : s.unwrapped_filled_buffer_counter = k)
    (hentry : s.active_buffer_entry_count = 0) :
    (data_processor_buffers_on_trigger st tick s).buffer_fifo
        = s.buffer_fifo ++ [BUFFERFIFO_START_SEQUENCE]
          ++ (List.range (pretrigger_backfill_count st k).toNat).map
              (fun i : Nat => (k - pretrigger_backfill_count st k) + (i : Int))
    ∧ (data_processor_buffers_on_trigger st tick s).is_triggered = true
    ∧ (data_processor_buffers_on_trigger st tick s).final_unwrapped_buffer_for_trigger
        = k + (st.min_sampling_buffers : Int)
    ∧ ((data_processor_buffers st DATA_BUFFER_ENTRIES)^[st.min_sampling_buffers + 2]
          (data_processor_buffers_on_trigger st tick s)).buffer_fifo
        = s.buffer_fifo ++ [BUFFERFIFO_START_SEQUENCE]
          ++ (List.range (pretrigger_backfill_count st k).toNat).map
              (fun i : Nat => (k - pretrigger_backfill_count st k) + (i : Int))
          ++ (List.range (st.min_sampling_buffers + 1)).map (fun i : Nat => k + (i : Int))
          ++ [BUFFERFIFO_END_SEQUENCE]
    ∧ ((data_processor_buffers st DATA_BUFFER_ENTRIES)^[st.min_sampling_buffers + 2]
          (data_processor_buffers_on_trigger st tick s)).is_triggered = false := by
  have hnotick : ¬ tick < s.gate_released_ticks + 10 := not_lt.mpr htick
  have h1 : (data_processor_buffers_on_trigger st tick s).buffer_fifo
      = s.buffer_fifo ++ [BUFFERFIFO_START_SEQUENCE]
        ++ (List.range (pretrigger_backfill_count st k).toNat).map
            (fun i : Nat => (k - pretrigger_backfill_count st k) + (i : Int)) := by
    simp [data_processor_buffers_on_trigger, hgate, htrig, hnotick, hfill,
      pretrigger_backfill_count]
  have h2 : (data_processor_buffers_on_trigger st tick s).is_triggered = true := by
    simp [data_processor_buffers_on_trigger, hgate, htrig, hnotick]
  have h3 : (data_processor_buffers_on_trigger st tick s).final_unwrapped_buffer_for_trigger
      = k + (st.min_sampling_buffers : Int) := by
    simp [data_processor_buffers_on_trigger, hgate, htrig, hnotick, hfill]
  have h4 : (data_processor_buffers_on_trigger st tick s).mode = .triggered := by
    simp [data_processor_buffers_on_trigger, hgate, htrig, hnotick, hmode]
  have h5 : (data_processor_buffers_on_trigger st tick s).active_buffer_entry_count = 0 := by
    simp [data_processor_buffers_on_trigger, hgate, htrig, hnotick, hentry]
  have h6 : (data_processor_buffers_on_trigger st tick s).unwrapped_filled_buffer_counter
      = k := by
    simp [data_processor_buffers_on_trigger, hgate, htrig, hnotick, hfill]
  obtain ⟨r1, r2⟩ := triggered_run st hg st.min_sampling_buffers
    (data_processor_buffers_on_trigger st tick s) k h4 h2 h5 h6 h3
  refine ⟨h1, h2, h3, ?_, r2⟩
  rw [r1, h1]

theorem c2_witness :
    ((data_processor_buffers ⟨false, 2, 1⟩ DATA_BUFFER_ENTRIES)^[1 + 2]
        (data_processor_buffers_on_trigger ⟨false, 2, 1⟩ 20
          { data_processor_buffers_reset .triggered with
            unwrapped_filled_buffer_counter := 3 })).is_triggered = false :=
  (c2_pretrigger_backfill_sequence ⟨false, 2, 1⟩ 20
    { data_processor_buffers_reset .triggered with unwrapped_filled_buffer_counter := 3 }
    3 rfl rfl rfl rfl (by decide) rfl rfl).2.2.2.2

/-- C3: a trigger event while already triggered (a retrigger) sets the
final index to the maximum of the old final index and the current fill
counter plus the configured minimum recording duration (the invariant
hypothesis holds in every reachable triggered state because the final
index was last set from an earlier, no larger, fill counter), and
enqueues no START or END token. -/
theorem c3_retrigger_extends_final_index (st : BufferSettings) (tick : Int)
    (s : BufferState)
    (hgate : s.is_gated = false) (htick : s.gate_released_ticks + 10 ≤ tick)
    (htrig : s.is_triggered = true)
    (hinv : s.final_unwrapped_buffer_for_trigger
      ≤ s.unwrapped_filled_buffer_counter + (st.min_sampling_buffers : Int)) :
    (data_processor_buffers_on_trigger st tick s).final_unwrapped_buffer_for_trigger
        = max s.final_unwrapped_buffer_for_trigger
            (s.unwrapped_filled_buffer_counter + (st.min_sampling_buffers : Int))
    ∧ (data_processor_buffers_on_trigger st tick s).buffer_fifo = s.buffer_fifo
    ∧ (data_processor_buffers_on_trigger st tick s).is_triggered = true := by
  have hnotick : ¬ tick < s.gate_released_ticks + 10 := not_lt.mpr htick
  simp [data_processor_buffers_on_trigger, hgate, htrig, hnotick, max_eq_right hinv]

theorem c3_witness :
    (data_processor_buffers_on_trigger ⟨false, 0, 2⟩ 20
        { data_processor_buffers_reset .triggered with
          is_triggered := true }).final_unwrapped_buffer_for_trigger
      = max (0 : Int) (0 + (2 : Nat)) :=
  (c3_retrigger_extends_final_index ⟨false, 0, 2⟩ 20
    { data_processor_buffers_reset .triggered with is_triggered := true }
    rfl (by decide) rfl (by decide)).1

/-! ### Consumer pull lemmas -/

theorem get_next_loop_yield_bound (st : BufferSettings) (fill abi : Int) :
    ∀ (l : List Int) (ins : Bool) (v slot : Int),
      (get_next_loop st fill abi l ins).2.2 = GetNextResult.yieldSlot v slot →
      fill - (NUM_BUFFERS : Int) + 1 ≤ v ∧ v < fill := by
  intro l
  induction l with
  | nil =>
    intro ins v slot h
    simp [get_next_loop] at h
  | cons x rest ih =>
    intro ins v slot h
    rw [get_next_loop] at h
    split_ifs at h with h1 h2 h3 h4 h5 h6
    · exact ih true v slot h
    · exact ih ins v slot h
    · exact ih ins v slot h
    · have h' : GetNextResult.yieldSlot x (get_next_read_buffer_index fill abi x)
          = GetNextResult.yieldSlot v slot := h
      injection h' with hx hs
      subst hx
      omega
    · have h' : GetNextResult.yieldSlot x (get_next_read_buffer_index fill abi x)
          = GetNextResult.yieldSlot v slot := h
      injection h' with hx hs
      subst hx
      omega

theorem get_next_loop_suffix (st : BufferSettings) (fill abi : Int) :
    ∀ (l : List Int) (ins : Bool),
      (get_next_loop st fill abi l ins).1.IsSuffix l := by
  intro l
  induction l with
  | nil =>
    intro ins
    simp [get_next_loop]
  | cons x rest ih =>
    intro ins
    rw [get_next_loop]
    split_ifs
    · exact List.suffix_cons x rest
    · exact (ih true).trans (List.suffix_cons x rest)
    · exact (ih ins).trans (List.suffix_cons x rest)
    · exact (ih ins).trans (List.suffix_cons x rest)
    · exact List.suffix_cons x rest
    · exact List.suffix_cons x rest
    · exact List.suffix_refl _

/-- C4: `get_next` never yields a data token outside the retained window:
a yielded unwrapped index `v` satisfies
`fill_counter - NUM_BUFFERS + 1 ≤ v < fill_counter` (stale and future
tokens are consumed from the FIFO and discarded without being returned,
the loop continuing to the next entry), and the resulting FIFO is a
suffix of the original. -/
theorem c4_get_next_discards_stale_and_future (st : BufferSettings)
    (s : BufferState) (v slot : Int)
    (h : (dataprocessor_buffers_get_next st s).2 = GetNextResult.yieldSlot v slot) :
    (s.unwrapped_filled_buffer_counter - (NUM_BUFFERS : Int) + 1 ≤ v
      ∧ v < s.unwrapped_filled_buffer_counter)
    ∧ (dataprocessor_buffers_get_next st s).1.buffer_fifo.IsSuffix s.buffer_fifo := by
  unfold dataprocessor_buffers_get_next at h ⊢
  by_cases hcond : (st.gated_recording && !s.is_gated) = true
  · rw [if_pos hcond] at h
    simp at h
  · rw [if_neg hcond] at h ⊢
    refine ⟨?_, ?_⟩
    · exact get_next_loop_yield_bound st s.unwrapped_filled_buffer_counter
        (s.active_buffer_index : Int) s.buffer_fifo s.is_new_sequence v slot h
    · exact get_next_loop_suffix st s.unwrapped_filled_buffer_counter
        (s.active_buffer_index : Int) s.buffer_fifo s.is_new_sequence

theorem c4_witness :
    ((40 : Int) - (NUM_BUFFERS : Int) + 1 ≤ 39 ∧ (39 : Int) < 40)
    ∧ (dataprocessor_buffers_get_next ⟨true, 0, 0⟩
        { data_processor_buffers_reset .triggered with
          unwrapped_filled_buffer_counter := 40, active_buffer_index := 3,
          buffer_fifo := [2, 50, 39], is_gated := true }).1.buffer_fifo.IsSuffix
        [2, 50, 39] :=
  c4_get_next_discards_stale_and_future ⟨true, 0, 0⟩
    { data_processor_buffers_reset .triggered with
      unwrapped_filled_buffer_counter := 40, active_buffer_index := 3,
      buffer_fifo := [2, 50, 39], is_gated := true } 39 1 (by decide)

/-! ### FIFO occupancy invariant for gated triggered sessions -/

/-- Invariant of a gated triggered recording session: occupancy is
bounded by `NUM_BUFFERS + 2`, with the tighter bounds `NUM_BUFFERS + 1`
while the gate is clear and `1` while additionally no trigger window is
open. -/
def SequencerInv (s : BufferState) : Prop :=
  s.mode = .triggered
  ∧ s.buffer_fifo.length ≤ NUM_BUFFERS + 2
  ∧ (s.is_gated = false → s.buffer_fifo.length ≤ NUM_BUFFERS + 1)
  ∧ (s.is_gated = false → s.is_triggered = false → s.buffer_fifo.length ≤ 1)

theorem rotate_gated_inv (st : BufferSettings) (s : BufferState)
    (hg : st.gated_recording = true) (hmode : s.mode = .triggered)
    (hgate : s.is_gated = false)
    (h1 : s.buffer_fifo.length ≤ NUM_BUFFERS + 1)
    (h2 : s.is_triggered = false → s.buffer_fifo.length ≤ 1) :
    (rotate_decide_fifo st s).mode = .triggered
    ∧ (rotate_decide_fifo st s).buffer_fifo.length ≤ NUM_BUFFERS + 2
    ∧ ((rotate_decide_fifo st s).is_gated = false →
        (rotate_decide_fifo st s).buffer_fifo.length ≤ NUM_BUFFERS + 1)
    ∧ ((rotate_decide_fifo st s).is_gated = false →
        (rotate_decide_fifo st s).is_triggered = false →
        (rotate_decide_fifo st s).buffer_fifo.length ≤ 1) := by
  cases htrig : s.is_triggered
  · have hs : rotate_decide_fifo st s = s := by
      simp [rotate_decide_fifo, hmode, htrig]
    rw [hs]
    exact ⟨hmode, by omega, fun _ => h1, fun _ _ => h2 htrig⟩
  · simp only [rotate_decide_fifo, hmode, htrig, hg, if_true]
    split_ifs with hend hfull
    · refine ⟨rfl, ?_, ?_, ?_⟩
      · simp
        omega
      · intro hq
        simp at hq
      · intro hq _
        simp at hq
    · refine ⟨rfl, ?_, ?_, ?_⟩
      · simp
        omega
      · intro hq
        simp at hq
      · intro hq _
        simp at hq
    · refine ⟨rfl, ?_, ?_, ?_⟩
      · simp
        omega
      · intro _
        simp
        omega
      · intro _ ht
        simp [htrig] at ht

theorem append_proj (st : BufferSettings) (c : Nat) (s : BufferState)
    (h : (st.gated_recording && s.is_gated) = false) :
    (data_processor_buffers st c s).buffer_fifo
      = (if DATA_BUFFER_ENTRIES ≤ s.active_buffer_entry_count
            + min (DATA_BUFFER_ENTRIES - s.active_buffer_entry_count) c
         then rotate_decide_fifo st { s with
            active_buffer_index := next_active_buffer_index s.active_buffer_index,
            active_buffer_entry_count := 0 }
         else s).buffer_fifo
    ∧ (data_processor_buffers st c s).is_gated
      = (if DATA_BUFFER_ENTRIES ≤ s.active_buffer_entry_count
            + min (DATA_BUFFER_ENTRIES - s.active_buffer_entry_count) c
         then rotate_decide_fifo st { s with
            active_buffer_index := next_active_buffer_index s.active_buffer_index,
            active_buffer_entry_count := 0 }
         else s).is_gated
    ∧ (data_processor_buffers st c s).is_triggered
      = (if DATA_BUFFER_ENTRIES ≤ s.active_buffer_entry_count
            + min (DATA_BUFFER_ENTRIES - s.active_buffer_entry_count) c
         then rotate_decide_fifo st { s with
            active_buffer_index := next_active_buffer_index s.active_buffer_index,
            active_buffer_entry_count := 0 }
         else s).is_triggered
    ∧ (data_processor_buffers st c s).mode
      = (if DATA_BUFFER_ENTRIES ≤ s.active_buffer_entry_count
            + min (DATA_BUFFER_ENTRIES - s.active_buffer_entry_count) c
         then rotate_decide_fifo st { s with
            active_buffer_index := next_active_buffer_index s.active_buffer_index,
            active_buffer_entry_count := 0 }
         else s).mode := by
  simp only [data_processor_buffers, h, Bool.false_eq_true, if_false]
  split_ifs <;> simp

theorem inv_append (st : BufferSettings) (hg : st.gated_recording = true)
    (c : Nat) (s : BufferState) (hInv : SequencerInv s) :
    SequencerInv (data_processor_buffers st c s) := by
  obtain ⟨hmode, hb1, hb2, hb3⟩ := hInv
  by_cases hgate : s.is_gated = true
  · have : data_processor_buffers st c s = s := by
      simp [data_processor_buffers, hg, hgate]
    rw [this]
    exact ⟨hmode, hb1, hb2, hb3⟩
  · have hgate' : s.is_gated = false := by
      revert hgate; cases s.is_gated <;> simp
    obtain ⟨e1, e2, e3, e4⟩ := append_proj st c s (by simp [hgate'])
    by_cases hrot : DATA_BUFFER_ENTRIES ≤ s.active_buffer_entry_count
        + min (DATA_BUFFER_ENTRIES - s.active_buffer_entry_count) c
    · rw [if_pos hrot] at e1 e2 e3 e4
      obtain ⟨r1, r2, r3, r4⟩ := rotate_gated_inv st
        { s with active_buffer_index := next_active_buffer_index s.active_buffer_index,
                 active_buffer_entry_count := 0 }
        hg hmode hgate' (hb2 hgate') (fun ht => hb3 hgate' ht)
      exact ⟨by rw [e4]; exact r1, by rw [e1]; exact r2,
        fun hq => by rw [e1]; exact r3 (by rw [← e2]; exact hq),
        fun hq ht => by rw [e1]; exact r4 (by rw [← e2]; exact hq) (by rw [← e3]; exact ht)⟩
    · rw [if_neg hrot] at e1 e2 e3 e4
      exact ⟨by rw [e4]; exact hmode, by rw [e1]; exact hb1,
        fun hq => by rw [e1]; exact hb2 (by rw [← e2]; exact hq),
        fun hq ht => by rw [e1]; exact hb3 (by rw [← e2]; exact hq) (by rw [← e3]; exact ht)⟩

theorem inv_trigger (st : BufferSettings) (tick : Int) (s : BufferState)
    (hInv : SequencerInv s) :
    SequencerInv (data_processor_buffers_on_trigger st tick s) := by
  obtain ⟨hmode, hb1, hb2, hb3⟩ := hInv
  unfold data_processor_buffers_on_trigger
  split_ifs with hguard htrig
  · exact ⟨hmode, hb1, hb2, hb3⟩
  · exact ⟨hmode, hb1, hb2, fun hq ht => absurd ht (by simp [htrig])⟩
  · have hgate' : s.is_gated = false := by
      revert hguard
      cases s.is_gated <;> simp
    have htrig' : s.is_triggered = false := by
      revert htrig
      cases s.is_triggered <;> simp
    have hlen : s.buffer_fifo.length ≤ 1 := hb3 hgate' htrig'
    have hN : NUM_BUFFERS = 37 := rfl
    have hD : BUFFER_DELTA = 2 := rfl
    have hple : (min (st.pretrigger_buffers : Int)
        (min ((NUM_BUFFERS : Int) - (BUFFER_DELTA : Int))
          s.unwrapped_filled_buffer_counter)).toNat ≤ 35 := by
      have h35 : min (st.pretrigger_buffers : Int)
          (min ((NUM_BUFFERS : Int) - (BUFFER_DELTA : Int))
            s.unwrapped_filled_buffer_counter) ≤ 35 :=
        le_trans (min_le_right _ _) (le_trans (min_le_left _ _) (by norm_num [hN, hD]))
      omega
    refine ⟨hmode, ?_, ?_, ?_⟩
    · simp only [List.length_append, List.length_map, List.length_range,
        List.length_cons, List.length_nil]
      omega
    · intro _
      simp only [List.length_append, List.length_map, List.length_range,
        List.length_cons, List.length_nil]
      omega
    · intro _ ht
      exact absurd ht (by simp)

theorem get_next_state_fields (st : BufferSettings) (s : BufferState) :
    (dataprocessor_buffers_get_next st s).1.buffer_fifo.length ≤ s.buffer_fifo.length
    ∧ (dataprocessor_buffers_get_next st s).1.mode = s.mode
    ∧ (dataprocessor_buffers_get_next st s).1.is_gated = s.is_gated
    ∧ (dataprocessor_buffers_get_next st s).1.is_triggered = s.is_triggered := by
  unfold dataprocessor_buffers_get_next
  split_ifs
  · exact ⟨le_refl _, rfl, rfl, rfl⟩
  · exact ⟨List.IsSuffix.length_le (get_next_loop_suffix st
      s.unwrapped_filled_buffer_counter (s.active_buffer_index : Int)
      s.buffer_fifo s.is_new_sequence), rfl, rfl, rfl⟩

theorem inv_pull (st : BufferSettings) (s : BufferState) (hInv : SequencerInv s) :
    SequencerInv (dataprocessor_buffers_get_next st s).1 := by
  obtain ⟨hmode, hb1, hb2, hb3⟩ := hInv
  obtain ⟨f1, f2, f3, f4⟩ := get_next_state_fields st s
  refine ⟨by rw [f2]; exact hmode, by omega, ?_, ?_⟩
  · intro hq
    rw [f3] at hq
    have := hb2 hq
    omega
  · intro hq ht
    rw [f3] at hq
    rw [f4] at ht
    have := hb3 hq ht
    omega

theorem inv_rec_complete (st : BufferSettings) (tick : Int) (s : BufferState)
    (hInv : SequencerInv s) (hdrained : s.buffer_fifo = []) :
    SequencerInv (data_processor_buffers_on_recording_complete st tick s) := by
  obtain ⟨hmode, -, -, -⟩ := hInv
  simp only [data_processor_buffers_on_recording_complete, hmode]
  split_ifs with hmin
  · refine ⟨rfl, ?_, fun _ => ?_, fun _ _ => ?_⟩
    all_goals simp [hdrained, NUM_BUFFERS]
  · refine ⟨rfl, ?_, fun _ => ?_, fun _ _ => ?_⟩
    all_goals simp [hdrained, NUM_BUFFERS]

/-- One completed slot in continuous non-gated mode: the completed
buffer index is enqueued unconditionally and the fill counter advances. -/
theorem append_full_continuous (st : BufferSettings) (s : BufferState)
    (hg : st.gated_recording = false) (hmode : s.mode = .continuous)
    (hentry : s.active_buffer_entry_count = 0) :
    (data_processor_buffers st DATA_BUFFER_ENTRIES s).buffer_fifo
        = s.buffer_fifo ++ [s.unwrapped_filled_buffer_counter]
    ∧ (data_processor_buffers st DATA_BUFFER_ENTRIES s).active_buffer_entry_count = 0
    ∧ (data_processor_buffers st DATA_BUFFER_ENTRIES s).mode = .continuous := by
  simp [data_processor_buffers, rotate_decide_fifo, hg, hmode, hentry]

/-- Producer-only run in continuous non-gated mode: after `n` completed
slots from reset the FIFO holds exactly `n` tokens. -/
theorem continuous_run_length (st : BufferSettings) (hg : st.gated_recording = false) :
    ∀ n : Nat,
      ((data_processor_buffers st DATA_BUFFER_ENTRIES)^[n]
          (data_processor_buffers_reset .continuous)).buffer_fifo.length = n
      ∧ ((data_processor_buffers st DATA_BUFFER_ENTRIES)^[n]
          (data_processor_buffers_reset .continuous)).active_buffer_entry_count = 0
      ∧ ((data_processor_buffers st DATA_BUFFER_ENTRIES)^[n]
          (data_processor_buffers_reset .continuous)).mode = .continuous := by
  intro n
  induction n with
  | zero => exact ⟨rfl, rfl, rfl⟩
  | succ n ih =>
    obtain ⟨ih1, ih2, ih3⟩ := ih
    obtain ⟨e1, e2, e3⟩ := append_full_continuous st
      ((data_processor_buffers st DATA_BUFFER_ENTRIES)^[n]
        (data_processor_buffers_reset .continuous)) hg ih3 ih2
    rw [Function.iterate_succ_apply']
    refine ⟨?_, e2, e3⟩
    rw [e1]
    simp [ih1]

/-- C5 counterexample: the claim as stated fails.  In continuous
non-gated mode, an interleaving consisting of `BUFFER_FIFO_LENGTH + 1`
producer slot completions from reset and no consumer steps drives the
FIFO occupancy to `BUFFER_FIFO_LENGTH + 1`, exceeding the capacity
`5 * NUM_BUFFERS = 185`. -/
theorem c5_counterexample :
    BUFFER_FIFO_LENGTH <
      ((data_processor_buffers ⟨false, 0, 0⟩ DATA_BUFFER_ENTRIES)^[BUFFER_FIFO_LENGTH + 1]
        (data_processor_buffers_reset .continuous)).buffer_fifo.length := by
  have h := (continuous_run_length ⟨false, 0, 0⟩ rfl (BUFFER_FIFO_LENGTH + 1)).1
  omega

/-- C5 (amended): in a gated triggered recording session — gated
recording enabled, triggered mode, and `on_recording_complete` signalled
only once the consumer has drained the FIFO, which is how the recording
layer uses it — every reachable state has FIFO occupancy at most
`NUM_BUFFERS + 2`, strictly below the capacity `5 * NUM_BUFFERS`, so a
producer enqueue never overwrites an unconsumed token.  Without gating
(or without consumer progress) the occupancy is unbounded, as the
counterexample shows. -/
theorem c5_gated_fifo_occupancy_bounded (st : BufferSettings)
    (hg : st.gated_recording = true) (s : BufferState)
    (h : SequencerReachable st s) :
    s.buffer_fifo.length ≤ NUM_BUFFERS + 2
    ∧ NUM_BUFFERS + 2 ≤ BUFFER_FIFO_LENGTH := by
  refine ⟨?_, by decide⟩
  have hInv : SequencerInv s := by
    unfold SequencerReachable at h
    induction h with
    | refl => exact ⟨rfl, by simp [data_processor_buffers_reset, NUM_BUFFERS],
        fun _ => by simp [data_processor_buffers_reset, NUM_BUFFERS],
        fun _ _ => by simp [data_processor_buffers_reset]⟩
    | tail hsteps hstep ih =>
      cases hstep with
      | append c s' => exact inv_append st hg c _ ih
      | trigger tick s' => exact inv_trigger st tick _ ih
      | pull s' => exact inv_pull st _ ih
      | recordingComplete tick s' drained => exact inv_rec_complete st tick _ ih drained
  exact hInv.2.1

theorem c5_witness :
    (data_processor_buffers_reset .triggered).buffer_fifo.length ≤ NUM_BUFFERS + 2
    ∧ NUM_BUFFERS + 2 ≤ BUFFER_FIFO_LENGTH :=
  c5_gated_fifo_occupancy_bounded ⟨true, 0, 0⟩ rfl
    (data_processor_buffers_reset .triggered) Relation.ReflTransGen.refl

/-- C7: the gated recording protocol.  With gated recording enabled:
(1) while the gate is set, a sample-append call leaves the entire module
state unchanged (samples are discarded); (2) in continuous mode a slot
completion that brings the FIFO occupancy to `NUM_BUFFERS + 1` (the data
token included) enqueues exactly one END token and sets the gate;
(3) in triggered mode a completed triggered window (fill counter past the
final index) enqueues exactly one END token, sets the gate and clears
`is_triggered`; (4) likewise a slot completion finding the FIFO already
at `NUM_BUFFERS + 1` entries enqueues one END and sets the gate; and
(5) `on_recording_complete` clears the gate and enqueues one START token,
after which intake resumes by (1). -/
theorem c7_gated_recording_protocol (st : BufferSettings)
    (hg : st.gated_recording = true) :
    (∀ (count : Nat) (s : BufferState), s.is_gated = true →
      data_processor_buffers st count s = s)
    ∧ (∀ s : BufferState, s.mode = .continuous → s.is_gated = false →
        s.active_buffer_entry_count = 0 → NUM_BUFFERS ≤ s.buffer_fifo.length →
        (data_processor_buffers st DATA_BUFFER_ENTRIES s).buffer_fifo
          = s.buffer_fifo ++ [s.unwrapped_filled_buffer_counter, BUFFERFIFO_END_SEQUENCE]
        ∧ (data_processor_buffers st DATA_BUFFER_ENTRIES s).is_gated = true)
    ∧ (∀ s : BufferState, s.mode = .triggered → s.is_gated = false →
        s.is_triggered = true → s.active_buffer_entry_count = 0 →
        s.final_unwrapped_buffer_for_trigger < s.unwrapped_filled_buffer_counter →
        (data_processor_buffers st DATA_BUFFER_ENTRIES s).buffer_fifo
          = s.buffer_fifo ++ [BUFFERFIFO_END_SEQUENCE]
        ∧ (data_processor_buffers st DATA_BUFFER_ENTRIES s).is_gated = true
        ∧ (data_processor_buffers st DATA_BUFFER_ENTRIES s).is_triggered = false)
    ∧ (∀ s : BufferState, s.mode = .triggered → s.is_gated = false →
        s.is_triggered = true → s.active_buffer_entry_count = 0 →
        s.unwrapped_filled_buffer_counter ≤ s.final_unwrapped_buffer_for_trigger →
        NUM_BUFFERS + 1 ≤ s.buffer_fifo.length →
        (data_processor_buffers st DATA_BUFFER_ENTRIES s).buffer_fifo
          = s.buffer_fifo ++ [BUFFERFIFO_END_SEQUENCE]
        ∧ (data_processor_buffers st DATA_BUFFER_ENTRIES s).is_gated = true)
    ∧ (∀ (tick : Int) (s : BufferState),
        (data_processor_buffers_on_recording_complete st tick s).is_gated = false
        ∧ (data_processor_buffers_on_recording_complete st tick s).buffer_fifo
            = s.buffer_fifo ++ [BUFFERFIFO_START_SEQUENCE]) := by
  refine ⟨?_, ?_, ?_, ?_, ?_⟩
  · intro count s hgate
    simp [data_processor_buffers, hg, hgate]
  · intro s hmode hgate hentry hlen
    constructor <;>
      simp [data_processor_buffers, rotate_decide_fifo, hg, hgate, hmode, hentry, hlen]
  · intro s hmode hgate htrig hentry hlt
    refine ⟨?_, ?_, ?_⟩ <;>
      simp [data_processor_buffers, rotate_decide_fifo, hg, hgate, hmode, hentry,
        htrig, hlt]
  · intro s hmode hgate htrig hentry hle hlen
    have hnotlt : ¬ s.final_unwrapped_buffer_for_trigger
        < s.unwrapped_filled_buffer_counter := not_lt.mpr hle
    constructor <;>
      simp [data_processor_buffers, rotate_decide_fifo, hg, hgate, hmode, hentry,
        htrig, hnotlt, hlen]
  · intro tick s
    cases hm : s.mode
    · constructor <;>
        (simp only [data_processor_buffers_on_recording_complete, hm]
         split_ifs <;> simp)
    · constructor <;> simp [data_processor_buffers_on_recording_complete, hm]

theorem c7_witness :
    data_processor_buffers ⟨true, 0, 0⟩ 5
        { data_processor_buffers_reset .triggered with is_gated := true }
      = { data_processor_buffers_reset .triggered with is_gated := true }
    ∧ (data_processor_buffers_on_recording_complete ⟨true, 0, 0⟩ 7
        (data_processor_buffers_reset .triggered)).is_gated = false :=
  ⟨(c7_gated_recording_protocol ⟨true, 0, 0⟩ rfl).1 5
      { data_processor_buffers_reset .triggered with is_gated := true } rfl,
   ((c7_gated_recording_protocol ⟨true, 0, 0⟩ rfl).2.2.2.2 7
      (data_processor_buffers_reset .triggered)).1⟩
